import Mathlib

/-!
Shallow embedding of the SparkConnector widget
(`src/SparkConnector/src/widgets/sparkconnector.ts`).

The source is a single-threaded, event-driven coordinator: a `StateHandler`
registry mapping notebook ids to `NotebookComm` records (notebook, per-session
phase objects, comm handle), and a `SparkConnector` widget that reacts to
document-focus changes, kernel connection-status changes, comm messages clearly
ordered by the host (one callback runs to completion before the next).

The embedding models the coordinator as an explicit state record (`CoordState`)
and a `step` function over external events.  Callback wiring is made explicit:
a signal with k installed subscriptions runs its slot k times on one firing
(`applyN`).  The notebook title label is modelled by the notebook identifier.

The phase-object classes imported by the source (notattached.ts, loading.ts,
configuring.ts, connecting.ts, connected.ts, connectfailed.ts) are not under
src/; where their behaviour matters it is modelled from the spec and marked so
in the doc comment of the corresponding definition.
-/

namespace SparkConnector

/-- A Spark option name/value pair (source: `interface SparkOpt`). -/
structure SparkOpt where
  name : String
  value : String
  deriving DecidableEq

/-- The saved configuration persisted in notebook metadata
(source: `interface SparkconnectMetadata`). -/
structure SparkconnectMetadata where
  bundled_options : List String
  list_of_options : List SparkOpt
  deriving DecidableEq

/-- Kernel connection status values distinguished by the widget
(`'connected'`, `'connecting'`, anything else). -/
inductive ConnStatus where
  | connected
  | connecting
  | otherStatus
  deriving DecidableEq

/-- The currently displayed phase (`SparkConnector.currentState`).  NotAttached
and Loading are session-independent; the other four belong to one notebook's
session. -/
inductive Displayed where
  | notattachedD
  | loadingD
  | configuringD (nb : String)
  | connectingD (nb : String)
  | connectedD (nb : String)
  | connectfailedD (nb : String)
  deriving DecidableEq

/-- Modelled from the spec: each displayed phase exposes a stable name string
(`IState.name()`); the phase classes are not under src/.  Only the comparisons
against `"connected"` and `"connecting"` in `onCommMessage` observe it. -/
def displayedName : Displayed → String
  | .notattachedD => "notattached"
  | .loadingD => "loading"
  | .configuringD _ => "configuring"
  | .connectingD _ => "connecting"
  | .connectedD _ => "connected"
  | .connectfailedD _ => "connectfailed"

/-- Modelled from the spec: the data `ConfigurationState.init` is called with in
`onCommMessage` (title, maxmemory, sparkversion, cluster, the saved
configuration read from notebook metadata, availableoptions, availablebundles;
the two option objects are kept opaque as strings). -/
structure ConfiguringData where
  title : String
  maxmemory : String
  sparkversion : String
  cluster : String
  savedConfig : SparkconnectMetadata
  availableoptions : String
  availablebundles : String
  deriving DecidableEq

/-- Modelled from the spec: the data `ConnectingState.init` is called with,
plus the log buffer appended to by `log`. -/
structure ConnectingData where
  title : String
  sparkversion : String
  cluster : String
  logs : List String
  deriving DecidableEq

/-- Modelled from the spec: the data `ConnectedState.init` is called with,
plus the log buffer appended to by `log`. -/
structure ConnectedData where
  title : String
  sparkhistoryserver : String
  logs : List String
  deriving DecidableEq

/-- Modelled from the spec: the data `ConnectFailedState.init` is called with. -/
structure ConnectFailedData where
  title : String
  error : String
  deriving DecidableEq

/-- The onConnect slot installed by `onCommMessage` captures the triggering
message's title, sparkversion and cluster fields (used for `connecting.init`
when the slot fires). -/
structure ConnectHandler where
  title : String
  sparkversion : String
  cluster : String
  deriving DecidableEq

/-- Per-session phase objects (source: `class NotebookStates`), together with
the signal subscriptions `onCommMessage` installs on them.  Modelled from the
spec: a phase's `init` repopulates its data; signal connections persist until
the object is discarded (each `.connect` call adds one more slot). -/
structure NotebookStates where
  configuring : ConfiguringData
  configuringHandlers : List ConnectHandler
  connecting : ConnectingData
  connected : ConnectedData
  connectedHandlers : Nat
  connectfailed : ConnectFailedData
  connectfailedHandlers : Nat
  deriving DecidableEq

/-- The phase objects as freshly constructed by `new NotebookStates()`:
empty data, no subscriptions. -/
def initialNotebookStates : NotebookStates :=
  { configuring := ⟨"", "", "", "", ⟨[], []⟩, "", ""⟩
  , configuringHandlers := []
  , connecting := ⟨"", "", "", []⟩
  , connected := ⟨"", "", []⟩
  , connectedHandlers := 0
  , connectfailed := ⟨"", ""⟩
  , connectfailedHandlers := 0 }

/-- Source: `interface NotebookComm` — one notebook's comm handle (here: its
disposed flag) and its phase-state bundle. -/
structure NotebookComm where
  states : NotebookStates
  commDisposed : Bool
  deriving DecidableEq

/-- An outbound comm payload: the optional top-level `type` field, the `action`
field, and the optional `action-data` (kept opaque as a string). -/
structure OutMsg where
  typeField : Option String
  action : String
  actionData : Option String
  deriving DecidableEq

/-- An inbound comm message, dispatched on by `onCommMessage` via its
`msgtype`; each constructor carries the payload fields the source reads. -/
inductive CommMsg where
  | actionOpen (page maxmemory sparkversion cluster availableoptions availablebundles : String)
  | connectedMsg (sparkhistoryserver : String)
  | configMsg
  | connectError (error : String)
  | followLog (msg : String)
  | unknownMsg
  deriving DecidableEq

/-- The JSONObject emitted with `ConfigurationState.onConnect`: the new
metadata to persist and the chosen options (kept opaque as a string). -/
structure ConnectPayload where
  metadata : SparkconnectMetadata
  options : String
  deriving DecidableEq

/-- External events delivered to the coordinator, one callback at a time:
document focus changes, kernel connection-status changes, the comm-open
acknowledgement, comm messages, comm closure, the user-action signals of the
phase objects, and the kernel entering the `'restarting'` status. -/
inductive Event where
  | focus (nb : Option String)
  | connStatus (nb : String) (st : ConnStatus)
  | ackOpen (nb : String)
  | commMsg (nb : String) (m : CommMsg)
  | commClose (nb : String)
  | fireConnect (nb : String) (p : ConnectPayload)
  | fireReconfigureConnected (nb : String)
  | fireReconfigureFailed (nb : String)
  | kernelRestarting (nb : String)
  deriving DecidableEq

/-- Association-list lookup (string-keyed maps of the source). -/
def lookupAssoc {α : Type} : List (String × α) → String → Option α
  | [], _ => none
  | (k, v) :: t, key => if k = key then some v else lookupAssoc t key

/-- Association-list update, inserting at the end when the key is absent. -/
def setAssoc {α : Type} : List (String × α) → String → α → List (String × α)
  | [], key, v => [(key, v)]
  | (k, w) :: t, key, v => if k = key then (key, v) :: t else (k, w) :: setAssoc t key v

/-- Membership in a list of notebook identifiers. -/
def containsStr : List String → String → Bool
  | [], _ => false
  | x :: t, nb => if x = nb then true else containsStr t nb

/-- Removal of a notebook identifier (`Map.delete`). -/
def deleteStr : List String → String → List String
  | [], _ => []
  | x :: t, nb => if x = nb then deleteStr t nb else x :: deleteStr t nb

/-- Key insertion for `Map.set` (keys are unique, so an existing key is kept). -/
def insertIfAbsent (l : List String) (nb : String) : List String :=
  if containsStr l nb then l else l ++ [nb]

/-- Number of occurrences of a notebook identifier in a subscription list. -/
def countOcc : List String → String → Nat
  | [], _ => 0
  | x :: t, nb => (if x = nb then 1 else 0) + countOcc t nb

/-- The whole coordinator state: the widget's display, the registry
(`StateHandler.states` keys), the comm records, the pending open
acknowledgements, the installed subscriptions, the kernels' connection
statuses, the notebook metadata stores, and the observable side effects
(messages sent, reconnect and restart requests). -/
structure CoordState where
  displayed : Displayed
  updateCount : Nat
  focusedNb : Option String
  focusSubs : Nat
  statusSubs : List String
  restartSubs : List String
  comms : List (String × NotebookComm)
  registry : List String
  pendingAck : List String
  connStatusMap : List (String × ConnStatus)
  metadata : List (String × List (String × SparkconnectMetadata))
  sent : List OutMsg
  reconnects : Nat
  restarts : Nat
  deriving DecidableEq

/-- Runs a slot k times (a signal with k installed subscriptions). -/
def applyN (f : CoordState → CoordState) : Nat → CoordState → CoordState
  | 0, s => s
  | k + 1, s => applyN f k (f s)

/-- Source: `SparkConnector.updateCurrent` — sets `currentState` and triggers a
re-render via `this.update()`; renders are counted by `updateCount`. -/
def updateCurrent (st : Displayed) (s : CoordState) : CoordState :=
  { s with displayed := st, updateCount := s.updateCount + 1 }

/-- Source: `StateHandler.has`. -/
def stateHandlerHas (s : CoordState) (nb : String) : Bool :=
  containsStr s.registry nb

/-- Source: `StateHandler.close` — deletes the registry entry only; no message
is sent and the comm is not disposed. -/
def stateHandlerClose (s : CoordState) (nb : String) : CoordState :=
  { s with registry := deleteStr s.registry nb }

/-- Source: `StateHandler.clear`. -/
def stateHandlerClear (s : CoordState) : CoordState :=
  { s with registry := [] }

/-- Source: `StateHandler.open` — looks up the `NotebookComm` and logs; the
handshake re-send below the disposed check is commented out in the source
(marked invalid for the current backend), so the operation leaves the state
unchanged. -/
def stateHandlerOpen (s : CoordState) (_nb : String) : CoordState := s

/-- Source: `StateHandler.create` — creates a comm, sends the open-handshake
payload, installs the onClose handler, and registers the entry only when the
open is acknowledged (`.done.then`, modelled by the `ackOpen` event via
`pendingAck`).  The comm recorded for the notebook is replaced by the fresh
one, with a fresh `NotebookStates`. -/
def stateHandlerCreate (s : CoordState) (nb : String) : CoordState :=
  { s with
    sent := s.sent ++ [⟨some "action", "sparkconn-action-open", none⟩]
  , comms := setAssoc s.comms nb ⟨initialNotebookStates, false⟩
  , pendingAck := s.pendingAck ++ [nb] }

/-- The metadata store of one notebook (empty when the notebook has none). -/
def metaOf (s : CoordState) (nb : String) : List (String × SparkconnectMetadata) :=
  (lookupAssoc s.metadata nb).getD []

/-- Source: `SparkConnector.getCurrentConfigFromNotebook` — the saved value
under the `'sparkconnect'` key, or the default when the key is absent. -/
def getCurrentConfigFromNotebook (meta : List (String × SparkconnectMetadata)) :
    SparkconnectMetadata :=
  match lookupAssoc meta "sparkconnect" with
  | some c => c
  | none => ⟨[], []⟩

/-- Source: `SparkConnector.setCurrentConfigToNotebook` — writes the
configuration under the `'sparkconnect'` key of the notebook's metadata. -/
def setCurrentConfigToNotebook (s : CoordState) (nb : String)
    (config : SparkconnectMetadata) : CoordState :=
  { s with metadata := setAssoc s.metadata nb (setAssoc (metaOf s nb) "sparkconnect" config) }

/-- The comm record currently held for a notebook. -/
def commOf (s : CoordState) (nb : String) : Option NotebookComm :=
  lookupAssoc s.comms nb

/-- Whether a non-disposed comm handle for the notebook exists. -/
def commAlive (s : CoordState) (nb : String) : Bool :=
  ((commOf s nb).map (fun nc => !nc.commDisposed)).getD false

/-- Updates the phase-state bundle of a notebook's comm record, when present. -/
def updateStates (s : CoordState) (nb : String) (f : NotebookStates → NotebookStates) :
    CoordState :=
  match commOf s nb with
  | some nc => { s with comms := setAssoc s.comms nb { nc with states := f nc.states } }
  | none => s

/-- The subscriptions currently installed on a notebook's Configuring phase. -/
def configuringHandlersOf (s : CoordState) (nb : String) : List ConnectHandler :=
  match commOf s nb with
  | some nc => nc.states.configuringHandlers
  | none => []

/-- The saved-configuration seed currently held by the notebook's Configuring
phase, when a comm record exists. -/
def savedConfigOf (s : CoordState) (nb : String) : Option SparkconnectMetadata :=
  (commOf s nb).map (fun nc => nc.states.configuring.savedConfig)

/-- The last connection status reported for a notebook's kernel
(`kernel.connectionStatus`); `none` before any report. -/
def kernelConnStatus (s : CoordState) (nb : String) : Option ConnStatus :=
  lookupAssoc s.connStatusMap nb

/-- Source: `SparkConnector.onCommMessage` — dispatch on `msgtype`.  On
`sparkconn-action-open` with page `sparkconn-config` it reads the saved
configuration, re-initializes Configuring, installs one more onConnect slot
and displays Configuring; on `sparkconn-connected` it re-initializes
Connected, installs one more kernel statusChanged handler and one more
onReconfigure slot and displays Connected; on `sparkconn-connect-error` it
re-initializes ConnectFailed, installs one more onReconfigure slot and
displays ConnectFailed; `sparkconn-action-follow-log` appends to the log of
the phase named by the current display; other msgtypes change nothing. -/
def onCommMessage (s : CoordState) (nb : String) (nc : NotebookComm) (m : CommMsg) :
    CoordState :=
  match m with
  | .actionOpen page maxmemory sparkversion cluster availableoptions availablebundles =>
    if page = "sparkconn-config" then
      let currentConfig := getCurrentConfigFromNotebook (metaOf s nb)
      let states1 : NotebookStates := { nc.states with
        configuring :=
          ⟨nb, maxmemory, sparkversion, cluster, currentConfig,
           availableoptions, availablebundles⟩
      , configuringHandlers := nc.states.configuringHandlers ++ [⟨nb, sparkversion, cluster⟩] }
      let s1 := { s with comms := setAssoc s.comms nb { nc with states := states1 } }
      updateCurrent (.configuringD nb) s1
    else s
  | .connectedMsg hs =>
    let states1 : NotebookStates := { nc.states with
      connected := ⟨nb, hs, []⟩
    , connectedHandlers := nc.states.connectedHandlers + 1 }
    let s1 := { s with
      comms := setAssoc s.comms nb { nc with states := states1 }
    , restartSubs := s.restartSubs ++ [nb] }
    updateCurrent (.connectedD nb) s1
  | .configMsg => s
  | .connectError err =>
    let states1 : NotebookStates := { nc.states with
      connectfailed := ⟨nb, err⟩
    , connectfailedHandlers := nc.states.connectfailedHandlers + 1 }
    let s1 := { s with comms := setAssoc s.comms nb { nc with states := states1 } }
    updateCurrent (.connectfailedD nb) s1
  | .followLog msg =>
    if displayedName s.displayed = "connected" then
      let states1 : NotebookStates := { nc.states with
        connected := { nc.states.connected with logs := nc.states.connected.logs ++ [msg] } }
      { s with comms := setAssoc s.comms nb { nc with states := states1 } }
    else if displayedName s.displayed = "connecting" then
      let states1 : NotebookStates := { nc.states with
        connecting := { nc.states.connecting with logs := nc.states.connecting.logs ++ [msg] } }
      { s with comms := setAssoc s.comms nb { nc with states := states1 } }
    else s
  | .unknownMsg => s

/-- One run of the `currentChanged` handler body for a newly focused notebook:
display Loading; then (once `sessionContext.ready` resolves, folded into the
event) either call `StateHandler.open` on an existing session — which sends
nothing, see `stateHandlerOpen` — or request `kernel.reconnect()` when the
kernel is already connected; finally install the `connectionStatusChanged`
subscription. -/
def focusHandler (nb : String) (s : CoordState) : CoordState :=
  let s1 := updateCurrent .loadingD s
  let s2 :=
    if stateHandlerHas s1 nb then stateHandlerOpen s1 nb
    else if kernelConnStatus s1 nb = some .connected then
      { s1 with reconnects := s1.reconnects + 1 }
    else s1
  { s2 with statusSubs := s2.statusSubs ++ [nb] }

/-- One run of the `connectionStatusChanged` handler for status `'connected'`:
create the session's comm via the registry (the incoming-message wiring with
its focus filter is part of `step`'s `commMsg` case). -/
def connectedStatusHandler (nb : String) (s : CoordState) : CoordState :=
  stateHandlerCreate s nb

/-- One run of the `connectionStatusChanged` handler for status `'connecting'`:
display Loading, then deregister the session without any teardown message. -/
def connectingStatusHandler (nb : String) (s : CoordState) : CoordState :=
  stateHandlerClose (updateCurrent .loadingD s) nb

/-- One run of the `connectionStatusChanged` handler for any other status:
display NotAttached. -/
def otherStatusHandler (s : CoordState) : CoordState :=
  updateCurrent .notattachedD s

/-- One onConnect slot as installed by `onCommMessage`: initialize Connecting
from the captured message fields, display Connecting, persist the submitted
configuration to the notebook metadata, and send the connect action. -/
def connectHandlerRun (nb : String) (p : ConnectPayload) (s : CoordState)
    (h : ConnectHandler) : CoordState :=
  let s1 := updateStates s nb
    (fun st => { st with connecting := ⟨h.title, h.sparkversion, h.cluster, []⟩ })
  let s2 := updateCurrent (.connectingD nb) s1
  let s3 := setCurrentConfigToNotebook s2 nb p.metadata
  { s3 with sent := s3.sent ++ [⟨some "action", "sparkconn-action-connect", some p.options⟩] }

/-- One onReconfigure slot of Connected: display Loading, send the disconnect
action (with the `type` field), request a kernel restart. -/
def connectedReconfigureRun (s : CoordState) : CoordState :=
  let s1 := updateCurrent .loadingD s
  { s1 with sent := s1.sent ++ [⟨some "action", "sparkconn-action-disconnect", none⟩]
          , restarts := s1.restarts + 1 }

/-- One onReconfigure slot of ConnectFailed: display Loading, send the
disconnect action — the payload at this call site in the source has no `type`
field — and request a kernel restart. -/
def connectFailedReconfigureRun (s : CoordState) : CoordState :=
  let s1 := updateCurrent .loadingD s
  { s1 with sent := s1.sent ++ [⟨none, "sparkconn-action-disconnect", none⟩]
          , restarts := s1.restarts + 1 }

/-- One `kernel.statusChanged` slot as installed on the connected message, for
status `'restarting'`: request `kernel.reconnect()`, then replace the
`StateHandler` with a fresh empty one and re-run `initStateHandling` — which
assigns `currentState := NotAttached` directly, without `updateCurrent` (so no
re-render), and subscribes `currentChanged` once more.  Pending registrations
target the discarded registry, so they are dropped. -/
def restartResetRun (s : CoordState) : CoordState :=
  { s with reconnects := s.reconnects + 1
         , registry := []
         , pendingAck := []
         , displayed := .notattachedD
         , focusSubs := s.focusSubs + 1 }

/-- The `currentChanged` event for "no notebook focused": every installed
handler displays NotAttached. -/
def stepFocusNone (s : CoordState) : CoordState :=
  let s0 := { s with focusedNb := none }
  applyN (updateCurrent .notattachedD) s0.focusSubs s0

/-- The `currentChanged` event for a focused notebook: every installed handler
runs `focusHandler`. -/
def stepFocusSome (s : CoordState) (nb : String) : CoordState :=
  let s0 := { s with focusedNb := some nb }
  applyN (focusHandler nb) s0.focusSubs s0

/-- A `connectionStatusChanged` event: the kernel's own status is recorded,
then every installed handler for that notebook runs the branch matching the
status. -/
def stepConnStatus (s : CoordState) (nb : String) (st : ConnStatus) : CoordState :=
  let s0 := { s with connStatusMap := setAssoc s.connStatusMap nb st }
  match st with
  | .connected => applyN (connectedStatusHandler nb) (countOcc s0.statusSubs nb) s0
  | .connecting => applyN (connectingStatusHandler nb) (countOcc s0.statusSubs nb) s0
  | .otherStatus => applyN otherStatusHandler (countOcc s0.statusSubs nb) s0

/-- The comm-open acknowledgement (`comm.open(...).done` resolving): registers
the pending entry in the registry. -/
def stepAckOpen (s : CoordState) (nb : String) : CoordState :=
  if containsStr s.pendingAck nb then
    { s with pendingAck := deleteStr s.pendingAck nb
           , registry := insertIfAbsent s.registry nb }
  else s

/-- A comm message arriving for a notebook's comm: `onMsg` runs only for a
live comm, and its body drops the message unless that notebook is the
currently focused document. -/
def stepCommMsg (s : CoordState) (nb : String) (m : CommMsg) : CoordState :=
  match commOf s nb with
  | some nc =>
    if nc.commDisposed then s
    else
      match s.focusedNb with
      | some f => if f = nb then onCommMessage s nb nc m else s
      | none => s
  | none => s

/-- The comm's close notification (`comm.onClose`): the comm is disposed, its
registry entry deleted and its pending registration dropped. -/
def stepCommClose (s : CoordState) (nb : String) : CoordState :=
  match commOf s nb with
  | some nc =>
    { s with comms := setAssoc s.comms nb { nc with commDisposed := true }
           , registry := deleteStr s.registry nb
           , pendingAck := deleteStr s.pendingAck nb }
  | none => s

/-- The Configuring phase's onConnect signal firing once: every installed slot
runs, in installation order. -/
def stepFireConnect (s : CoordState) (nb : String) (p : ConnectPayload) : CoordState :=
  match commOf s nb with
  | some nc => nc.states.configuringHandlers.foldl (connectHandlerRun nb p) s
  | none => s

/-- The Connected phase's onReconfigure signal firing once. -/
def stepFireReconfigureConnected (s : CoordState) (nb : String) : CoordState :=
  match commOf s nb with
  | some nc => applyN connectedReconfigureRun nc.states.connectedHandlers s
  | none => s

/-- The ConnectFailed phase's onReconfigure signal firing once. -/
def stepFireReconfigureFailed (s : CoordState) (nb : String) : CoordState :=
  match commOf s nb with
  | some nc => applyN connectFailedReconfigureRun nc.states.connectfailedHandlers s
  | none => s

/-- The kernel reporting status `'restarting'`: every statusChanged handler
installed by the connected message runs the reconnect-and-reset slot. -/
def stepKernelRestarting (s : CoordState) (nb : String) : CoordState :=
  applyN restartResetRun (countOcc s.restartSubs nb) s

/-- One external event processed to completion (the host runs callbacks one at
a time).  A signal with k installed subscriptions runs its slot k times. -/
def step (s : CoordState) : Event → CoordState
  | .focus none => stepFocusNone s
  | .focus (some nb) => stepFocusSome s nb
  | .connStatus nb st => stepConnStatus s nb st
  | .ackOpen nb => stepAckOpen s nb
  | .commMsg nb m => stepCommMsg s nb m
  | .commClose nb => stepCommClose s nb
  | .fireConnect nb p => stepFireConnect s nb p
  | .fireReconfigureConnected nb => stepFireReconfigureConnected s nb
  | .fireReconfigureFailed nb => stepFireReconfigureFailed s nb
  | .kernelRestarting nb => stepKernelRestarting s nb

/-- Source: the `SparkConnector` constructor — `initStateHandling` assigns
`currentState := NotAttached` directly (no render counted) and subscribes
`currentChanged` once. -/
def initState : CoordState :=
  { displayed := .notattachedD, updateCount := 0, focusedNb := none, focusSubs := 1
  , statusSubs := [], restartSubs := [], comms := [], registry := [], pendingAck := []
  , connStatusMap := [], metadata := [], sent := [], reconnects := 0, restarts := 0 }

/-- Runs a list of events from a given state. -/
def runFrom (s : CoordState) : List Event → CoordState
  | [] => s
  | e :: t => runFrom (step s e) t

/-- Runs a list of events from the freshly constructed widget. -/
def runTrace (tr : List Event) : CoordState := runFrom initState tr

/-- The displayed phase after each event of a trace, in order. -/
def displayedTrace (s : CoordState) : List Event → List Displayed
  | [] => []
  | e :: t => (step s e).displayed :: displayedTrace (step s e) t

/-- Well-formedness of one event in a state: the transport delivers an open
acknowledgement for a channel only while that channel is still alive (its
`comm_close` has not already been delivered). -/
def wfEvent (s : CoordState) : Event → Bool
  | .ackOpen nb => !containsStr s.pendingAck nb || commAlive s nb
  | _ => true

/-- Trace well-formedness: every event is well-formed in the state it is
delivered in. -/
def wfFrom (s : CoordState) : List Event → Bool
  | [] => true
  | e :: t => wfEvent s e && wfFrom (step s e) t

/-- Well-formedness from the initial state. -/
def wfTrace (tr : List Event) : Bool := wfFrom initState tr

/-- Whether an event is the kernel entering the `'restarting'` status. -/
def isRestartEvent : Event → Bool
  | .kernelRestarting _ => true
  | _ => false

/-! ### Helper lemmas on the small map and list operations -/

theorem lookupAssoc_setAssoc_self {α : Type} (l : List (String × α)) (k : String) (v : α) :
    lookupAssoc (setAssoc l k v) k = some v := by
  induction l with
  | nil => simp [setAssoc, lookupAssoc]
  | cons hd t ih =>
    obtain ⟨k', w⟩ := hd
    by_cases h : k' = k
    · simp [setAssoc, lookupAssoc, h]
    · simp [setAssoc, lookupAssoc, h, ih]

theorem lookupAssoc_setAssoc_ne {α : Type} (l : List (String × α)) (k k' : String) (v : α)
    (h : k' ≠ k) : lookupAssoc (setAssoc l k v) k' = lookupAssoc l k' := by
  have h' : k ≠ k' := Ne.symm h
  induction l with
  | nil => simp [setAssoc, lookupAssoc, h']
  | cons hd t ih =>
    obtain ⟨k0, w⟩ := hd
    by_cases h0 : k0 = k
    · subst h0
      simp [setAssoc, lookupAssoc, h']
    · simp [setAssoc, lookupAssoc, h0, ih]

theorem containsStr_deleteStr_imp (l : List String) (nb d : String)
    (h : containsStr (deleteStr l nb) d = true) :
    containsStr l d = true ∧ d ≠ nb := by
  induction l with
  | nil => simp [deleteStr, containsStr] at h
  | cons x t ih =>
    by_cases hx : x = nb
    · simp only [deleteStr, hx, if_pos rfl] at h
      rcases ih h with ⟨h1, h2⟩
      refine ⟨?_, h2⟩
      by_cases hxd : x = d <;> simp [containsStr, hxd, h1]
    · simp only [deleteStr, if_neg hx, containsStr] at h
      by_cases hxd : x = d
      · subst hxd
        exact ⟨by simp [containsStr], fun he => hx he⟩
      · simp only [if_neg hxd] at h
        rcases ih h with ⟨h1, h2⟩
        exact ⟨by simp [containsStr, hxd, h1], h2⟩

theorem deleteStr_deleteStr (l : List String) (nb : String) :
    deleteStr (deleteStr l nb) nb = deleteStr l nb := by
  induction l with
  | nil => simp [deleteStr]
  | cons x t ih =>
    by_cases hx : x = nb
    · simp [deleteStr, hx, ih]
    · simp [deleteStr, hx, ih]

theorem containsStr_append_singleton (l : List String) (nb d : String)
    (h : containsStr (l ++ [nb]) d = true) :
    containsStr l d = true ∨ d = nb := by
  induction l with
  | nil =>
    simp only [List.nil_append, containsStr] at h
    by_cases hd : nb = d
    · exact Or.inr hd.symm
    · rw [if_neg hd] at h
      simp [containsStr] at h
  | cons x t ih =>
    simp only [List.cons_append, containsStr] at h
    by_cases hxd : x = d
    · exact Or.inl (by simp [containsStr, hxd])
    · rw [if_neg hxd] at h
      rcases ih h with h1 | h2
      · exact Or.inl (by simp [containsStr, hxd, h1])
      · exact Or.inr h2

theorem containsStr_insertIfAbsent_imp (l : List String) (nb d : String)
    (h : containsStr (insertIfAbsent l nb) d = true) :
    containsStr l d = true ∨ d = nb := by
  unfold insertIfAbsent at h
  by_cases hc : containsStr l nb = true
  · rw [if_pos hc] at h
    exact Or.inl h
  · rw [if_neg hc] at h
    exact containsStr_append_singleton l nb d h

/-! ### Helper lemmas on repeated slot execution -/

theorem applyN_pres (P : CoordState → Prop) (f : CoordState → CoordState)
    (hf : ∀ t, P t → P (f t)) : ∀ (k : Nat) (s : CoordState), P s → P (applyN f k s) := by
  intro k
  induction k with
  | zero => intro s hs; exact hs
  | succ k ih => intro s hs; exact ih (f s) (hf s hs)

theorem foldl_pres {α : Type} (P : CoordState → Prop) (f : CoordState → α → CoordState)
    (hf : ∀ t a, P t → P (f t a)) :
    ∀ (l : List α) (s : CoordState), P s → P (List.foldl f s l) := by
  intro l
  induction l with
  | nil => intro s hs; exact hs
  | cons a t ih => intro s hs; exact ih (f s a) (hf s a hs)

theorem applyN_uc_le (f : CoordState → CoordState)
    (hf : ∀ t, t.updateCount ≤ (f t).updateCount) :
    ∀ (k : Nat) (s : CoordState), s.updateCount ≤ (applyN f k s).updateCount := by
  intro k
  induction k with
  | zero => intro s; exact Nat.le_refl _
  | succ k ih => intro s; exact Nat.le_trans (hf s) (ih (f s))

theorem applyN_displayed_change (f : CoordState → CoordState)
    (hm : ∀ t, t.updateCount ≤ (f t).updateCount)
    (hc : ∀ t, (f t).displayed ≠ t.displayed → t.updateCount < (f t).updateCount) :
    ∀ (k : Nat) (s : CoordState),
      (applyN f k s).displayed ≠ s.displayed → s.updateCount < (applyN f k s).updateCount := by
  intro k
  induction k with
  | zero => intro s hne; exact absurd rfl hne
  | succ k ih =>
    intro s hne
    by_cases hd : (f s).displayed = s.displayed
    · have h1 : (applyN f k (f s)).displayed ≠ (f s).displayed := by
        rw [hd]; exact hne
      exact Nat.lt_of_le_of_lt (hm s) (ih (f s) h1)
    · exact Nat.lt_of_lt_of_le (hc s hd) (applyN_uc_le f hm k (f s))

theorem foldl_uc_le {α : Type} (f : CoordState → α → CoordState)
    (hf : ∀ t a, t.updateCount ≤ (f t a).updateCount) :
    ∀ (l : List α) (s : CoordState), s.updateCount ≤ (List.foldl f s l).updateCount := by
  intro l
  induction l with
  | nil => intro s; exact Nat.le_refl _
  | cons a t ih => intro s; exact Nat.le_trans (hf s a) (ih (f s a))

theorem foldl_displayed_change {α : Type} (f : CoordState → α → CoordState)
    (hm : ∀ t a, t.updateCount ≤ (f t a).updateCount)
    (hc : ∀ t a, (f t a).displayed ≠ t.displayed → t.updateCount < (f t a).updateCount) :
    ∀ (l : List α) (s : CoordState),
      (List.foldl f s l).displayed ≠ s.displayed → s.updateCount < (List.foldl f s l).updateCount := by
  intro l
  induction l with
  | nil => intro s hne; exact absurd rfl hne
  | cons a t ih =>
    intro s hne
    by_cases hd : (f s a).displayed = s.displayed
    · have h1 : (List.foldl f (f s a) t).displayed ≠ (f s a).displayed := by
        rw [hd]; exact hne
      exact Nat.lt_of_le_of_lt (hm s a) (ih (f s a) h1)
    · exact Nat.lt_of_lt_of_le (hc s a hd) (foldl_uc_le f hm t (f s a))

/-! ### Concrete traces used by the closed theorems -/

/-- The event sequence of the ordering scenario: focus, status connecting,
status connected, the config open message, the user's connect action. -/
def orderingTrace : List Event :=
  [.focus (some "n1"), .connStatus "n1" .connecting, .connStatus "n1" .connected,
   .commMsg "n1" (.actionOpen "sparkconn-config" "10g" "3.4.1" "cl1" "ao" "ab"),
   .fireConnect "n1" ⟨⟨["b1"], [⟨"spark.cores.max", "4"⟩]⟩, "chosen"⟩]

/-- A session is created, its open handshake is acknowledged, and then the
kernel reports `'connecting'`, which deregisters the session without disposing
the comm. -/
def explicitCloseTrace : List Event :=
  [.focus (some "n1"), .connStatus "n1" .connected, .ackOpen "n1",
   .connStatus "n1" .connecting]

/-- A session is created and registered while its notebook is focused, then
focus moves away; re-focusing the notebook afterwards hits the
`statehandler.has` branch. -/
def refocusTrace : List Event :=
  [.focus (some "n1"), .connStatus "n1" .connected, .ackOpen "n1", .focus none]

/-- Two `sparkconn-connect-error` messages arrive on the same session, then the
ConnectFailed reconfigure notification fires once. -/
def doubleErrorTrace : List Event :=
  [.focus (some "n1"), .connStatus "n1" .connected,
   .commMsg "n1" (.connectError "e1"), .commMsg "n1" (.connectError "e2"),
   .fireReconfigureFailed "n1"]

/-- One `sparkconn-connect-error` message arrives, then the ConnectFailed
reconfigure notification fires once. -/
def singleErrorTrace : List Event :=
  [.focus (some "n1"), .connStatus "n1" .connected,
   .commMsg "n1" (.connectError "timeout"), .fireReconfigureFailed "n1"]

/-- A session reaches the Connected display, after which the kernel reports
`'restarting'`. -/
def connectedThenRestartTrace : List Event :=
  [.focus (some "n1"), .connStatus "n1" .connected, .commMsg "n1" (.connectedMsg "http://h")]

/-- A session is created and its open handshake acknowledged. -/
def ackedSessionTrace : List Event :=
  [.focus (some "n1"), .connStatus "n1" .connected, .ackOpen "n1"]

/-- The kernel is connected but no session is registered (the handshake has
not been acknowledged). -/
def unregisteredConnectedTrace : List Event :=
  [.focus (some "n1"), .connStatus "n1" .connected]

/-- A session is created and receives the config open message, so its
Configuring phase holds one onConnect subscription. -/
def configuredSessionTrace : List Event :=
  [.focus (some "n1"), .connStatus "n1" .connected,
   .commMsg "n1" (.actionOpen "sparkconn-config" "m" "v" "c" "o" "b")]

/-! ### C4 — ordering of displayed phases -/

/-- C4: for the event sequence [focus(D), status(connecting), status(connected),
message(open, page=config), action(connect)] from the initial state, the
displayed phase after each event is exactly Loading, Loading, Loading,
Configuring, Connecting. -/
theorem ordering_displayed_phases :
    displayedTrace initState orderingTrace =
      [.loadingD, .loadingD, .loadingD, .configuringD "n1", .connectingD "n1"] := by
  decide

/-! ### C7 — messages for a non-focused document are dropped entirely -/

/-- C7: an incoming channel message for document D is a complete no-op — no
display change, no phase mutation, no reply, nothing queued — whenever the
currently focused document is absent or differs from D. -/
theorem message_dropped_when_not_focused (s : CoordState) (D : String) (m : CommMsg)
    (h : s.focusedNb ≠ some D) : step s (.commMsg D m) = s := by
  change stepCommMsg s D m = s
  unfold stepCommMsg
  split
  · next nc hnc =>
    split
    · rfl
    · next hd =>
      split
      · next f hf =>
        have hfd : ¬f = D := by
          intro he
          exact h (by rw [hf, he])
        simp [hfd]
      · rfl
  · rfl

/-- Witness for C7 at a concrete state and message. -/
theorem message_dropped_when_not_focused_witness :
    initState.focusedNb ≠ some "n1" ∧ step initState (.commMsg "n1" .unknownMsg) = initState :=
  ⟨by decide, message_dropped_when_not_focused initState "n1" .unknownMsg (by decide)⟩

/-! ### C9 — absent metadata entry yields the default configuration -/

/-- C9: for a notebook whose metadata store has no `'sparkconnect'` entry,
reading the current configuration returns the default value with empty
bundled_options and empty list_of_options, so Configuring is always seeded
with a well-formed configuration. -/
theorem default_config_when_absent (meta : List (String × SparkconnectMetadata))
    (h : lookupAssoc meta "sparkconnect" = none) :
    getCurrentConfigFromNotebook meta = ⟨[], []⟩ := by
  unfold getCurrentConfigFromNotebook
  rw [h]

/-- Witness for C9 at the empty metadata store. -/
theorem default_config_when_absent_witness :
    lookupAssoc ([] : List (String × SparkconnectMetadata)) "sparkconnect" = none ∧
      getCurrentConfigFromNotebook [] = ⟨[], []⟩ :=
  ⟨rfl, default_config_when_absent [] rfl⟩

/-! ### C1 — registry entry versus open channel -/

/-- C1 counterexample: after create, handshake acknowledgement and an explicit
close (triggered by the `'connecting'` status), the registry has no entry for
the document although a non-disposed channel handle for it still exists — the
claimed "entry iff open channel" fails on a well-formed event sequence. -/
theorem session_iff_channel_counterexample :
    wfTrace explicitCloseTrace = true ∧
    stateHandlerHas (runTrace explicitCloseTrace) "n1" = false ∧
    commAlive (runTrace explicitCloseTrace) "n1" = true := by
  decide

/-! ### C3 — behaviour on re-focusing a document with an existing session -/

/-- C3 counterexample: with a registered session for the document and focus
elsewhere, re-focusing it sends nothing on the channel — the open-handshake
re-issue is absent (commented out in the source). -/
theorem refocus_no_handshake_counterexample :
    stateHandlerHas (runTrace refocusTrace) "n1" = true ∧
    (runTrace refocusTrace).focusedNb = none ∧
    (step (runTrace refocusTrace) (.focus (some "n1"))).sent = (runTrace refocusTrace).sent := by
  decide

/-! ### C2 — duplicate subscriptions on phase re-entry -/

/-- C2 evidence: two `sparkconn-connect-error` messages on the same session
install two onReconfigure slots on the same ConnectFailed instance, so one
firing of the notification sends the disconnect action twice and requests two
kernel restarts. -/
theorem duplicate_subscription_evidence :
    (runTrace doubleErrorTrace).sent =
      [⟨some "action", "sparkconn-action-open", none⟩,
       ⟨none, "sparkconn-action-disconnect", none⟩,
       ⟨none, "sparkconn-action-disconnect", none⟩] ∧
    (runTrace doubleErrorTrace).restarts = 2 := by
  decide

/-! ### C5 — outbound envelope shape -/

/-- C5 evidence: the disconnect action sent from ConnectFailed's reconfigure
notification has no `type` field, so not every outbound message carries
`type: "action"` (the create handshake and the Connected-path disconnect do). -/
theorem missing_type_field_evidence :
    (runTrace singleErrorTrace).sent =
      [⟨some "action", "sparkconn-action-open", none⟩,
       ⟨none, "sparkconn-action-disconnect", none⟩] ∧
    ((runTrace singleErrorTrace).sent.all (fun msg => msg.typeField == some "action")) = false := by
  decide

/-! ### C10 — how the displayed phase may change -/

/-- C10 counterexample: after the kernel reports `'restarting'` on a Connected
session, the reset re-runs `initStateHandling`, which changes the displayed
phase (Connected to NotAttached) by direct assignment: the render counter does
not move, so the change does not go through `updateCurrent`. -/
theorem restart_reset_display_counterexample :
    (step (runTrace connectedThenRestartTrace) (.kernelRestarting "n1")).displayed ≠
      (runTrace connectedThenRestartTrace).displayed ∧
    (step (runTrace connectedThenRestartTrace) (.kernelRestarting "n1")).updateCount =
      (runTrace connectedThenRestartTrace).updateCount := by
  decide

/-! ### C6 — frame property of the `'connecting'` status -/

theorem applyN_connectingStatusHandler (nb : String) :
    ∀ (k : Nat) (s : CoordState), 1 ≤ k →
      applyN (connectingStatusHandler nb) k s =
        { s with displayed := .loadingD
               , updateCount := s.updateCount + k
               , registry := deleteStr s.registry nb } := by
  intro k
  induction k with
  | zero => intro s h; exact absurd h (by omega)
  | succ k ih =>
    intro s _
    by_cases hk : 1 ≤ k
    · rw [show applyN (connectingStatusHandler nb) (k + 1) s =
            applyN (connectingStatusHandler nb) k (connectingStatusHandler nb s) from rfl,
          ih _ hk]
      cases s
      simp [connectingStatusHandler, stateHandlerClose, updateCurrent, deleteStr_deleteStr]
      all_goals omega
    · have hk0 : k = 0 := by omega
      subst hk0
      cases s
      simp [applyN, connectingStatusHandler, stateHandlerClose, updateCurrent]

/-- C6: when the kernel connection status for a document with a registered
session becomes `'connecting'`, the coordinator displays Loading (one render
per installed handler) and removes the document's registry entry; apart from
the kernel's own recorded status, nothing else changes — in particular no
teardown or other message is sent, the comm is not disposed, and metadata,
request counters and subscriptions are untouched. -/
theorem connecting_status_frame (s : CoordState) (D : String)
    (_h1 : stateHandlerHas s D = true) (h2 : 1 ≤ countOcc s.statusSubs D) :
    step s (.connStatus D .connecting) =
      { s with displayed := .loadingD
             , updateCount := s.updateCount + countOcc s.statusSubs D
             , registry := deleteStr s.registry D
             , connStatusMap := setAssoc s.connStatusMap D .connecting } := by
  have hbr : step s (.connStatus D .connecting) =
      applyN (connectingStatusHandler D) (countOcc s.statusSubs D)
        { s with connStatusMap := setAssoc s.connStatusMap D .connecting } := rfl
  rw [hbr, applyN_connectingStatusHandler D _ _ h2]

/-! ### C3 — effects of focusing a document once its session is ready -/

/-- How many reconnect requests one run of the focus handler issues: none when
a session is registered (the open routine sends nothing), one when no session
exists and the kernel is already connected, none otherwise. -/
def focusBranchReconnects (nb : String) (s : CoordState) : Nat :=
  if stateHandlerHas s nb then 0
  else if kernelConnStatus s nb = some .connected then 1 else 0

theorem focusHandler_effects (nb : String) (s : CoordState) :
    (focusHandler nb s).sent = s.sent ∧
    (focusHandler nb s).registry = s.registry ∧
    (focusHandler nb s).connStatusMap = s.connStatusMap ∧
    (focusHandler nb s).reconnects = s.reconnects + focusBranchReconnects nb s := by
  unfold focusHandler focusBranchReconnects stateHandlerOpen updateCurrent
    stateHandlerHas kernelConnStatus
  by_cases hc : containsStr s.registry nb = true
  · simp [hc]
  · simp only [hc, Bool.false_eq_true, if_false]
    by_cases hk : lookupAssoc s.connStatusMap nb = some ConnStatus.connected
    · simp [hk]
    · simp [hk]

theorem applyN_focusHandler (nb : String) :
    ∀ (k : Nat) (s : CoordState),
      (applyN (focusHandler nb) k s).sent = s.sent ∧
      (applyN (focusHandler nb) k s).registry = s.registry ∧
      (applyN (focusHandler nb) k s).connStatusMap = s.connStatusMap ∧
      (applyN (focusHandler nb) k s).reconnects =
        s.reconnects + k * focusBranchReconnects nb s := by
  intro k
  induction k with
  | zero => intro s; exact ⟨rfl, rfl, rfl, by simp [applyN]⟩
  | succ k ih =>
    intro s
    have h1 := focusHandler_effects nb s
    have h2 := ih (focusHandler nb s)
    have hb : focusBranchReconnects nb (focusHandler nb s) = focusBranchReconnects nb s := by
      unfold focusBranchReconnects stateHandlerHas kernelConnStatus
      rw [h1.2.1, h1.2.2.1]
    have hstep : applyN (focusHandler nb) (k + 1) s =
        applyN (focusHandler nb) k (focusHandler nb s) := rfl
    rw [hstep]
    refine ⟨h2.1.trans h1.1, h2.2.1.trans h1.2.1, h2.2.2.1.trans h1.2.2.1, ?_⟩
    rw [h2.2.2.2, hb, h1.2.2.2]
    ring

/-- C3 (amended): when a document is focused and its session becomes ready,
no message is ever sent on its channel — with a registered session the open
routine is invoked but its handshake re-send is disabled in the source; and
when no session is registered while the kernel's connection status is already
`'connected'`, a transport reconnect is requested (once per installed focus
handler). -/
theorem focus_ready_behaviour (s : CoordState) (D : String) :
    (step s (.focus (some D))).sent = s.sent ∧
    (stateHandlerHas s D = false → kernelConnStatus s D = some .connected →
      (step s (.focus (some D))).reconnects = s.reconnects + s.focusSubs) := by
  have hbr : step s (.focus (some D)) =
      applyN (focusHandler D) s.focusSubs { s with focusedNb := some D } := rfl
  rw [hbr]
  have h := applyN_focusHandler D s.focusSubs { s with focusedNb := some D }
  refine ⟨h.1, ?_⟩
  intro hhas hconn
  rw [h.2.2.2]
  have hb : focusBranchReconnects D { s with focusedNb := some D } = 1 := by
    unfold focusBranchReconnects
    have hh : stateHandlerHas { s with focusedNb := some D } D = false := hhas
    have hk : kernelConnStatus { s with focusedNb := some D } D = some .connected := hconn
    rw [hh, hk]
    simp
  rw [hb]
  show s.reconnects + s.focusSubs * 1 = s.reconnects + s.focusSubs
  ring

/-- Witness for C3 at a concrete state with no registered session and a
connected kernel. -/
theorem focus_ready_behaviour_witness :
    stateHandlerHas (runTrace unregisteredConnectedTrace) "n1" = false ∧
    kernelConnStatus (runTrace unregisteredConnectedTrace) "n1" = some .connected ∧
    (step (runTrace unregisteredConnectedTrace) (.focus (some "n1"))).sent =
      (runTrace unregisteredConnectedTrace).sent ∧
    (step (runTrace unregisteredConnectedTrace) (.focus (some "n1"))).reconnects =
      (runTrace unregisteredConnectedTrace).reconnects +
        (runTrace unregisteredConnectedTrace).focusSubs := by
  refine ⟨by decide, by decide, ?_, ?_⟩
  · exact (focus_ready_behaviour _ "n1").1
  · exact (focus_ready_behaviour _ "n1").2 (by decide) (by decide)

/-- Witness for C6 at a concrete registered session. -/
theorem connecting_status_frame_witness :
    stateHandlerHas (runTrace ackedSessionTrace) "n1" = true ∧
    1 ≤ countOcc (runTrace ackedSessionTrace).statusSubs "n1" ∧
    step (runTrace ackedSessionTrace) (.connStatus "n1" .connecting) =
      { (runTrace ackedSessionTrace) with
          displayed := .loadingD
        , updateCount := (runTrace ackedSessionTrace).updateCount +
            countOcc (runTrace ackedSessionTrace).statusSubs "n1"
        , registry := deleteStr (runTrace ackedSessionTrace).registry "n1"
        , connStatusMap := setAssoc (runTrace ackedSessionTrace).connStatusMap "n1" .connecting } :=
  ⟨by decide, by decide, connecting_status_frame _ "n1" (by decide) (by decide)⟩

/-! ### C8 — round-trip of the saved configuration -/

theorem updateStates_metadata (s : CoordState) (nb : String)
    (f : NotebookStates → NotebookStates) :
    (updateStates s nb f).metadata = s.metadata := by
  unfold updateStates
  cases hc : commOf s nb <;> simp [hc]

theorem connectHandlerRun_meta (nb : String) (p : ConnectPayload) (s : CoordState)
    (h : ConnectHandler) :
    lookupAssoc (metaOf (connectHandlerRun nb p s h) nb) "sparkconnect" = some p.metadata := by
  unfold connectHandlerRun setCurrentConfigToNotebook metaOf
  rw [lookupAssoc_setAssoc_self]
  simp [lookupAssoc_setAssoc_self]

theorem foldl_connectHandlerRun_meta (nb : String) (p : ConnectPayload) :
    ∀ (l : List ConnectHandler) (s : CoordState), l ≠ [] →
      lookupAssoc (metaOf (List.foldl (connectHandlerRun nb p) s l) nb) "sparkconnect" =
        some p.metadata := by
  intro l
  induction l with
  | nil => intro s h; exact absurd rfl h
  | cons a t ih =>
    intro s _
    cases t with
    | nil => exact connectHandlerRun_meta nb p s a
    | cons b t' => exact ih (connectHandlerRun nb p s a) (by simp)

/-- C8: a configuration submitted via Configuring's connect action is persisted
under the fixed `'sparkconnect'` key of the document's metadata; whenever
Configuring is next entered for that document (the config open message arriving
while the document is focused, with the metadata store unchanged since the
submission), the seed it is initialized with is exactly the submitted
configuration; and the kernel-restart reset leaves the document metadata
untouched, so the round trip also survives a backend restart. -/
theorem saved_config_round_trip (s : CoordState) (D : String) (p : ConnectPayload)
    (hh : configuringHandlersOf s D ≠ []) :
    getCurrentConfigFromNotebook (metaOf (step s (.fireConnect D p)) D) = p.metadata ∧
    (∀ (s2 : CoordState) (mm sv cl ao ab : String),
      metaOf s2 D = metaOf (step s (.fireConnect D p)) D →
      s2.focusedNb = some D →
      commAlive s2 D = true →
      savedConfigOf (step s2 (.commMsg D (.actionOpen "sparkconn-config" mm sv cl ao ab))) D =
        some p.metadata) ∧
    metaOf (step (step s (.fireConnect D p)) (.kernelRestarting D)) D =
      metaOf (step s (.fireConnect D p)) D := by
  have hlk : lookupAssoc (metaOf (step s (.fireConnect D p)) D) "sparkconnect" =
      some p.metadata := by
    change lookupAssoc (metaOf (stepFireConnect s D p) D) "sparkconnect" = some p.metadata
    unfold stepFireConnect
    split
    · next nc hc =>
      apply foldl_connectHandlerRun_meta
      unfold configuringHandlersOf at hh
      rw [hc] at hh
      exact hh
    · next hc =>
      unfold configuringHandlersOf at hh
      rw [hc] at hh
      exact absurd rfl hh
  have hget : getCurrentConfigFromNotebook (metaOf (step s (.fireConnect D p)) D) =
      p.metadata := by
    unfold getCurrentConfigFromNotebook
    rw [hlk]
  refine ⟨hget, ?_, ?_⟩
  · intro s2 mm sv cl ao ab hmeta hfoc halive
    have hstep2 : step s2 (.commMsg D (.actionOpen "sparkconn-config" mm sv cl ao ab)) =
        stepCommMsg s2 D (.actionOpen "sparkconn-config" mm sv cl ao ab) := rfl
    rw [hstep2]
    unfold stepCommMsg
    unfold commAlive at halive
    cases hc2 : commOf s2 D with
    | none => rw [hc2] at halive; simp at halive
    | some nc2 =>
      rw [hc2] at halive
      simp at halive
      simp only [hc2, halive, Bool.false_eq_true, if_false, hfoc, if_pos rfl]
      unfold onCommMessage
      simp only [if_pos rfl]
      unfold savedConfigOf commOf updateCurrent
      simp only [lookupAssoc_setAssoc_self, Option.map_some']
      rw [hmeta, hget]
      simp [lookupAssoc_setAssoc_self]
  · have hstep3 : step (step s (.fireConnect D p)) (.kernelRestarting D) =
        stepKernelRestarting (step s (.fireConnect D p)) D := rfl
    rw [hstep3]
    unfold stepKernelRestarting
    have hpres : ∀ (k : Nat) (t : CoordState), (applyN restartResetRun k t).metadata = t.metadata := by
      intro k
      induction k with
      | zero => intro t; rfl
      | succ k ih => intro t; exact (ih (restartResetRun t)).trans rfl
    unfold metaOf
    rw [hpres]

/-- The payload used by the C8 witness. -/
def roundTripPayload : ConnectPayload := ⟨⟨["bx"], [⟨"opt", "val"⟩]⟩, "opts"⟩

/-- Witness for C8 at a concrete configured session. -/
theorem saved_config_round_trip_witness :
    configuringHandlersOf (runTrace configuredSessionTrace) "n1" ≠ [] ∧
    getCurrentConfigFromNotebook
      (metaOf (step (runTrace configuredSessionTrace) (.fireConnect "n1" roundTripPayload)) "n1") =
      roundTripPayload.metadata ∧
    savedConfigOf
      (step (step (runTrace configuredSessionTrace) (.fireConnect "n1" roundTripPayload))
        (.commMsg "n1" (.actionOpen "sparkconn-config" "m" "v" "c" "o" "b"))) "n1" =
      some roundTripPayload.metadata := by
  have h := saved_config_round_trip (runTrace configuredSessionTrace) "n1" roundTripPayload
    (by decide)
  exact ⟨by decide, h.1, h.2.1 _ "m" "v" "c" "o" "b" rfl (by decide) (by decide)⟩

/-! ### C10 — the initial display and how the display may change -/

theorem updateStates_uc (s : CoordState) (nb : String) (f : NotebookStates → NotebookStates) :
    (updateStates s nb f).updateCount = s.updateCount := by
  unfold updateStates
  cases hc : commOf s nb <;> simp [hc]

theorem connectHandlerRun_uc (nb : String) (p : ConnectPayload) (t : CoordState)
    (h : ConnectHandler) :
    (connectHandlerRun nb p t h).updateCount = t.updateCount + 1 := by
  have h1 : (connectHandlerRun nb p t h).updateCount =
      (updateStates t nb fun st =>
        { st with connecting := ⟨h.title, h.sparkversion, h.cluster, []⟩ }).updateCount + 1 := rfl
  rw [h1, updateStates_uc]

theorem focusHandler_uc (nb : String) (t : CoordState) :
    (focusHandler nb t).updateCount = t.updateCount + 1 := by
  simp only [focusHandler, stateHandlerOpen, updateCurrent]
  split
  · rfl
  · split <;> rfl

theorem stepAckOpen_displayed (s : CoordState) (nb : String) :
    (stepAckOpen s nb).displayed = s.displayed := by
  unfold stepAckOpen
  split <;> rfl

theorem stepCommClose_displayed (s : CoordState) (nb : String) :
    (stepCommClose s nb).displayed = s.displayed := by
  unfold stepCommClose
  split <;> rfl

theorem stepCommMsg_disp_or (s : CoordState) (nb : String) (m : CommMsg) :
    (stepCommMsg s nb m).displayed = s.displayed ∨
    (stepCommMsg s nb m).updateCount = s.updateCount + 1 := by
  unfold stepCommMsg
  split
  · next nc hc =>
    split
    · exact Or.inl rfl
    · split
      · next f hf =>
        split
        · cases m with
          | actionOpen page mm sv cl ao ab =>
            simp only [onCommMessage]
            by_cases hp : page = "sparkconn-config"
            · rw [if_pos hp]
              exact Or.inr rfl
            · rw [if_neg hp]
              exact Or.inl rfl
          | connectedMsg hs => exact Or.inr rfl
          | configMsg => exact Or.inl rfl
          | connectError err => exact Or.inr rfl
          | followLog msg =>
            simp only [onCommMessage]
            by_cases hcd : displayedName s.displayed = "connected"
            · rw [if_pos hcd]
              exact Or.inl rfl
            · rw [if_neg hcd]
              by_cases hcg : displayedName s.displayed = "connecting"
              · rw [if_pos hcg]
                exact Or.inl rfl
              · rw [if_neg hcg]
                exact Or.inl rfl
          | unknownMsg => exact Or.inl rfl
        · exact Or.inl rfl
      · exact Or.inl rfl
  · exact Or.inl rfl

/-- C10 (amended): at construction the displayed phase is NotAttached (exactly
one phase is displayed at any time, as `displayed` is a single field), and on
every event the displayed phase either changes together with a render through
`updateCurrent` (the render counter strictly increases) or the event is the
kernel-restart reset, whose re-initialization assigns NotAttached directly
without a render. -/
theorem displayed_change_accounting :
    initState.displayed = Displayed.notattachedD ∧
    ∀ (s : CoordState) (e : Event),
      (step s e).displayed ≠ s.displayed →
      s.updateCount < (step s e).updateCount ∨ isRestartEvent e = true := by
  refine ⟨rfl, ?_⟩
  intro s e hne
  cases e with
  | focus nb =>
    cases nb with
    | none =>
      left
      exact applyN_displayed_change (updateCurrent .notattachedD)
        (fun t => Nat.le_succ t.updateCount)
        (fun t _ => Nat.lt_succ_self t.updateCount)
        s.focusSubs { s with focusedNb := none } hne
    | some nb =>
      left
      exact applyN_displayed_change (focusHandler nb)
        (fun t => by rw [focusHandler_uc]; omega)
        (fun t _ => by rw [focusHandler_uc]; omega)
        s.focusSubs { s with focusedNb := some nb } hne
  | connStatus nb st =>
    left
    cases st with
    | connected =>
      exact applyN_displayed_change (connectedStatusHandler nb)
        (fun t => Nat.le_refl t.updateCount)
        (fun t hd => absurd rfl hd)
        (countOcc s.statusSubs nb) { s with connStatusMap := setAssoc s.connStatusMap nb .connected }
        hne
    | connecting =>
      exact applyN_displayed_change (connectingStatusHandler nb)
        (fun t => Nat.le_succ t.updateCount)
        (fun t _ => Nat.lt_succ_self t.updateCount)
        (countOcc s.statusSubs nb) { s with connStatusMap := setAssoc s.connStatusMap nb .connecting }
        hne
    | otherStatus =>
      exact applyN_displayed_change otherStatusHandler
        (fun t => Nat.le_succ t.updateCount)
        (fun t _ => Nat.lt_succ_self t.updateCount)
        (countOcc s.statusSubs nb) { s with connStatusMap := setAssoc s.connStatusMap nb .otherStatus }
        hne
  | ackOpen nb => exact absurd (stepAckOpen_displayed s nb) hne
  | commMsg nb m =>
    left
    rcases stepCommMsg_disp_or s nb m with hd | hu
    · exact absurd hd hne
    · rw [show step s (.commMsg nb m) = stepCommMsg s nb m from rfl, hu]
      omega
  | commClose nb => exact absurd (stepCommClose_displayed s nb) hne
  | fireConnect nb p =>
    left
    have key : (stepFireConnect s nb p).displayed ≠ s.displayed →
        s.updateCount < (stepFireConnect s nb p).updateCount := by
      unfold stepFireConnect
      split
      · next nc hc =>
        intro hne2
        exact foldl_displayed_change (connectHandlerRun nb p)
          (fun t a => by rw [connectHandlerRun_uc]; omega)
          (fun t a _ => by rw [connectHandlerRun_uc]; omega)
          nc.states.configuringHandlers s hne2
      · intro hne2
        exact absurd rfl hne2
    exact key hne
  | fireReconfigureConnected nb =>
    left
    have key : (stepFireReconfigureConnected s nb).displayed ≠ s.displayed →
        s.updateCount < (stepFireReconfigureConnected s nb).updateCount := by
      unfold stepFireReconfigureConnected
      split
      · next nc hc =>
        intro hne2
        exact applyN_displayed_change connectedReconfigureRun
          (fun t => Nat.le_succ t.updateCount)
          (fun t _ => Nat.lt_succ_self t.updateCount)
          nc.states.connectedHandlers s hne2
      · intro hne2
        exact absurd rfl hne2
    exact key hne
  | fireReconfigureFailed nb =>
    left
    have key : (stepFireReconfigureFailed s nb).displayed ≠ s.displayed →
        s.updateCount < (stepFireReconfigureFailed s nb).updateCount := by
      unfold stepFireReconfigureFailed
      split
      · next nc hc =>
        intro hne2
        exact applyN_displayed_change connectFailedReconfigureRun
          (fun t => Nat.le_succ t.updateCount)
          (fun t _ => Nat.lt_succ_self t.updateCount)
          nc.states.connectfailedHandlers s hne2
      · intro hne2
        exact absurd rfl hne2
    exact key hne
  | kernelRestarting nb =>
    right
    rfl

/-- Witness for C10 at a concrete display-changing event. -/
theorem displayed_change_accounting_witness :
    (step initState (.focus (some "n1"))).displayed ≠ initState.displayed ∧
    (initState.updateCount < (step initState (.focus (some "n1"))).updateCount ∨
      isRestartEvent (.focus (some "n1")) = true) :=
  ⟨by decide, displayed_change_accounting.2 initState (.focus (some "n1")) (by decide)⟩

/-! ### C1 — registry entries only for live channels (the provable direction) -/

/-- Every registered document currently has a live (non-disposed) comm. -/
def RegistryAlive (s : CoordState) : Prop :=
  ∀ d, containsStr s.registry d = true → commAlive s d = true

theorem commAlive_set (base : CoordState) (nb d : String) (v : NotebookComm)
    (t : CoordState) (hcm : t.comms = setAssoc base.comms nb v)
    (hv : v.commDisposed = false) (hs : commAlive base d = true) :
    commAlive t d = true := by
  unfold commAlive commOf
  rw [hcm]
  by_cases hdn : d = nb
  · subst hdn
    rw [lookupAssoc_setAssoc_self]
    simp [hv]
  · rw [lookupAssoc_setAssoc_ne _ _ _ _ hdn]
    unfold commAlive commOf at hs
    exact hs

theorem commAlive_set_ne (base : CoordState) (nb d : String) (v : NotebookComm)
    (t : CoordState) (hcm : t.comms = setAssoc base.comms nb v)
    (hdn : d ≠ nb) (hs : commAlive base d = true) :
    commAlive t d = true := by
  unfold commAlive commOf
  rw [hcm, lookupAssoc_setAssoc_ne _ _ _ _ hdn]
  unfold commAlive commOf at hs
  exact hs

theorem focusHandler_comms (nb : String) (t : CoordState) :
    (focusHandler nb t).comms = t.comms := by
  simp only [focusHandler, stateHandlerOpen, updateCurrent]
  split
  · rfl
  · split <;> rfl

theorem updateStates_registry (s : CoordState) (nb : String)
    (f : NotebookStates → NotebookStates) :
    (updateStates s nb f).registry = s.registry := by
  unfold updateStates
  cases hc : commOf s nb <;> simp [hc]

theorem commAlive_updateStates (s : CoordState) (nb : String)
    (f : NotebookStates → NotebookStates) (d : String) :
    commAlive (updateStates s nb f) d = commAlive s d := by
  unfold updateStates
  cases hc : commOf s nb with
  | none => simp [hc]
  | some nc =>
    have hc' : lookupAssoc s.comms nb = some nc := hc
    unfold commAlive commOf
    by_cases hdn : d = nb
    · subst hdn
      rw [show ({ s with comms := setAssoc s.comms d { nc with states := f nc.states } } :
            CoordState).comms = setAssoc s.comms d { nc with states := f nc.states } from rfl,
          lookupAssoc_setAssoc_self, hc']
      rfl
    · rw [show ({ s with comms := setAssoc s.comms nb { nc with states := f nc.states } } :
            CoordState).comms = setAssoc s.comms nb { nc with states := f nc.states } from rfl,
          lookupAssoc_setAssoc_ne _ _ _ _ hdn]

/-- One-step preservation: a well-formed event keeps every registry entry
backed by a live comm. -/
theorem registryAlive_step (s : CoordState) (e : Event)
    (hw : wfEvent s e = true) (h : RegistryAlive s) : RegistryAlive (step s e) := by
  cases e with
  | focus nb =>
    cases nb with
    | none =>
      exact applyN_pres RegistryAlive (updateCurrent .notattachedD)
        (fun t ht => ht) s.focusSubs { s with focusedNb := none } h
    | some nb =>
      refine applyN_pres RegistryAlive (focusHandler nb) ?_ s.focusSubs
        { s with focusedNb := some nb } h
      intro t ht d hd
      rw [(focusHandler_effects nb t).2.1] at hd
      have hal := ht d hd
      unfold commAlive commOf
      rw [focusHandler_comms]
      unfold commAlive commOf at hal
      exact hal
  | connStatus nb st =>
    cases st with
    | connected =>
      refine applyN_pres RegistryAlive (connectedStatusHandler nb) ?_
        (countOcc s.statusSubs nb)
        { s with connStatusMap := setAssoc s.connStatusMap nb .connected } h
      intro t ht d hd
      exact commAlive_set t nb d ⟨initialNotebookStates, false⟩
        (connectedStatusHandler nb t) rfl rfl (ht d hd)
    | connecting =>
      refine applyN_pres RegistryAlive (connectingStatusHandler nb) ?_
        (countOcc s.statusSubs nb)
        { s with connStatusMap := setAssoc s.connStatusMap nb .connecting } h
      intro t ht d hd
      have hd' : containsStr (deleteStr t.registry nb) d = true := hd
      exact ht d (containsStr_deleteStr_imp _ _ _ hd').1
    | otherStatus =>
      exact applyN_pres RegistryAlive otherStatusHandler (fun t ht => ht)
        (countOcc s.statusSubs nb)
        { s with connStatusMap := setAssoc s.connStatusMap nb .otherStatus } h
  | ackOpen nb =>
    change RegistryAlive (stepAckOpen s nb)
    unfold stepAckOpen
    by_cases hp : containsStr s.pendingAck nb = true
    · rw [if_pos hp]
      intro d hd
      have hd' : containsStr (insertIfAbsent s.registry nb) d = true := hd
      rcases containsStr_insertIfAbsent_imp _ _ _ hd' with h1 | h2
      · exact h d h1
      · subst h2
        have hw' : commAlive s d = true := by
          simp only [wfEvent] at hw
          rw [hp] at hw
          simpa using hw
        exact hw'
    · rw [if_neg hp]
      exact h
  | commMsg nb m =>
    change RegistryAlive (stepCommMsg s nb m)
    unfold stepCommMsg
    split
    · next nc hc =>
      by_cases hdisp : nc.commDisposed = true
      · rw [if_pos hdisp]
        exact h
      · rw [if_neg hdisp]
        have hdisp' : nc.commDisposed = false := by simpa using hdisp
        split
        · next f hf =>
          by_cases hfn : f = nb
          · rw [if_pos hfn]
            cases m with
            | actionOpen page mm sv cl ao ab =>
              simp only [onCommMessage]
              by_cases hp : page = "sparkconn-config"
              · rw [if_pos hp]
                intro d hd
                exact commAlive_set s nb d _ _ rfl hdisp' (h d hd)
              · rw [if_neg hp]
                exact h
            | connectedMsg hs =>
              intro d hd
              exact commAlive_set s nb d _ _ rfl hdisp' (h d hd)
            | configMsg => exact h
            | connectError err =>
              intro d hd
              exact commAlive_set s nb d _ _ rfl hdisp' (h d hd)
            | followLog msg =>
              simp only [onCommMessage]
              by_cases hcd : displayedName s.displayed = "connected"
              · rw [if_pos hcd]
                intro d hd
                exact commAlive_set s nb d _ _ rfl hdisp' (h d hd)
              · rw [if_neg hcd]
                by_cases hcg : displayedName s.displayed = "connecting"
                · rw [if_pos hcg]
                  intro d hd
                  exact commAlive_set s nb d _ _ rfl hdisp' (h d hd)
                · rw [if_neg hcg]
                  exact h
            | unknownMsg => exact h
          · rw [if_neg hfn]
            exact h
        · exact h
    · exact h
  | commClose nb =>
    change RegistryAlive (stepCommClose s nb)
    unfold stepCommClose
    split
    · next nc hc =>
      intro d hd
      have hd' : containsStr (deleteStr s.registry nb) d = true := hd
      obtain ⟨h1, h2⟩ := containsStr_deleteStr_imp _ _ _ hd'
      exact commAlive_set_ne s nb d { nc with commDisposed := true } _ rfl h2 (h d h1)
    · exact h
  | fireConnect nb p =>
    change RegistryAlive (stepFireConnect s nb p)
    unfold stepFireConnect
    split
    · next nc hc =>
      refine foldl_pres RegistryAlive (connectHandlerRun nb p) ?_
        nc.states.configuringHandlers s h
      intro t a ht d hd
      have hreg : (connectHandlerRun nb p t a).registry = t.registry := by
        have h1 : (connectHandlerRun nb p t a).registry =
            (updateStates t nb fun st =>
              { st with connecting := ⟨a.title, a.sparkversion, a.cluster, []⟩ }).registry := rfl
        rw [h1, updateStates_registry]
      have hd1 : containsStr (connectHandlerRun nb p t a).registry d = true := hd
      rw [hreg] at hd1
      have hca : commAlive (connectHandlerRun nb p t a) d = commAlive t d := by
        have h2 : commAlive (connectHandlerRun nb p t a) d =
            commAlive (updateStates t nb fun st =>
              { st with connecting := ⟨a.title, a.sparkversion, a.cluster, []⟩ }) d := rfl
        rw [h2, commAlive_updateStates]
      rw [hca]
      exact ht d hd1
    · exact h
  | fireReconfigureConnected nb =>
    change RegistryAlive (stepFireReconfigureConnected s nb)
    unfold stepFireReconfigureConnected
    split
    · next nc hc =>
      exact applyN_pres RegistryAlive connectedReconfigureRun (fun t ht => ht)
        nc.states.connectedHandlers s h
    · exact h
  | fireReconfigureFailed nb =>
    change RegistryAlive (stepFireReconfigureFailed s nb)
    unfold stepFireReconfigureFailed
    split
    · next nc hc =>
      exact applyN_pres RegistryAlive connectFailedReconfigureRun (fun t ht => ht)
        nc.states.connectfailedHandlers s h
    · exact h
  | kernelRestarting nb =>
    refine applyN_pres RegistryAlive restartResetRun ?_ (countOcc s.restartSubs nb) s h
    intro t ht d hd
    simp [restartResetRun, containsStr] at hd

theorem registryAlive_runFrom :
    ∀ (tr : List Event) (s : CoordState),
      RegistryAlive s → wfFrom s tr = true → RegistryAlive (runFrom s tr) := by
  intro tr
  induction tr with
  | nil => intro s h _; exact h
  | cons e t ih =>
    intro s h hwf
    unfold wfFrom at hwf
    simp only [Bool.and_eq_true] at hwf
    exact ih (step s e) (registryAlive_step s e hwf.1 h) hwf.2

/-- C1 (amended): along any well-formed event sequence from the initial state,
a registry entry for a document implies that a live (non-disposed) channel
handle for it exists — entries are added only by the open-handshake
acknowledgement of a live channel and removed on channel close, explicit close
and the restart reset.  The converse direction of the original claim fails: an
open channel can exist without a registry entry (before the acknowledgement,
and after an explicit close, which does not dispose the channel) — see the
counterexample theorem. -/
theorem registry_entry_implies_live_channel (tr : List Event) (D : String)
    (hwf : wfTrace tr = true)
    (hreg : containsStr (runTrace tr).registry D = true) :
    commAlive (runTrace tr) D = true := by
  have hinit : RegistryAlive initState := by
    intro d hd
    simp [initState, containsStr] at hd
  exact registryAlive_runFrom tr initState hinit hwf D hreg

/-- Witness for C1 at a concrete acknowledged session. -/
theorem registry_entry_implies_live_channel_witness :
    wfTrace ackedSessionTrace = true ∧
    containsStr (runTrace ackedSessionTrace).registry "n1" = true ∧
    commAlive (runTrace ackedSessionTrace) "n1" = true :=
  ⟨by decide, by decide,
    registry_entry_implies_live_channel ackedSessionTrace "n1" (by decide) (by decide)⟩

end SparkConnector
